import Mathlib

/-!
Shallow embedding of the pixi-abm river-ecosystem simulation core:
environment (River), plant (Hyacinth) and fish agents, the simulation
clock, and the population-manager handlers, translated from the
TypeScript sources (final variants in src/agents and src/simulation).
JavaScript numbers are modelled as exact rationals.
-/

namespace PixiAbm

/-- Environment record, from `River` in the environment module
(final variant with dissolved-oxygen fields). -/
structure River where
  flowDirection : ℚ
  flowRate : ℚ
  totalNutrients : ℚ
  temperature : ℚ
  sunlight : ℚ
  pollutionLevel : ℚ
  initialDissolvedOxygen : ℚ
  currentDissolvedOxygen : ℚ
deriving Repr, DecidableEq

/-- Default river created by `createRiver` (final variant). -/
def createRiver : River :=
  { flowDirection := 0
    flowRate := 1
    totalNutrients := 100
    temperature := 30
    sunlight := 8/10
    pollutionLevel := 20
    initialDissolvedOxygen := 6
    currentDissolvedOxygen := 6 }

/-- A `Partial<River>` update object: each field optionally supplied. -/
structure RiverUpdates where
  flowDirection : Option ℚ := none
  flowRate : Option ℚ := none
  totalNutrients : Option ℚ := none
  temperature : Option ℚ := none
  sunlight : Option ℚ := none
  pollutionLevel : Option ℚ := none
  initialDissolvedOxygen : Option ℚ := none
  currentDissolvedOxygen : Option ℚ := none
deriving Repr, DecidableEq

/-- `updateRiver(updates)`: merges the update into the river; only the
two dissolved-oxygen fields are constrained (clamped into [0, 7]) before
merging, exactly as in the source. -/
def updateRiver (u : RiverUpdates) (r : River) : River :=
  { flowDirection := u.flowDirection.getD r.flowDirection
    flowRate := u.flowRate.getD r.flowRate
    totalNutrients := u.totalNutrients.getD r.totalNutrients
    temperature := u.temperature.getD r.temperature
    sunlight := u.sunlight.getD r.sunlight
    pollutionLevel := u.pollutionLevel.getD r.pollutionLevel
    initialDissolvedOxygen :=
      (u.initialDissolvedOxygen.map (fun v => min 7 (max 0 v))).getD
        r.initialDissolvedOxygen
    currentDissolvedOxygen :=
      (u.currentDissolvedOxygen.map (fun v => min 7 (max 0 v))).getD
        r.currentDissolvedOxygen }

/-- Plant record, from the `Hyacinth` interface (final variant fields,
as constructed in `AgentScene`). -/
structure Hyacinth where
  id : String
  reproduceRate : ℚ
  x : ℚ
  y : ℚ
  rotationSpeed : ℚ
  resistance : ℚ
  biomass : ℚ
  nur : ℚ
  pol : ℚ
  growthRate : ℚ
  parent : Option String
  daughters : List String
  currentDaughters : ℤ
  futureDaughters : ℤ
  biomassGained : ℚ
  dissolvedOxygenImpact : ℚ
  age : ℚ
deriving Repr, DecidableEq

/-- Fish record, from the `Fish` interface (final variant). -/
structure Fish where
  id : String
  reproduceRate : ℚ
  x : ℚ
  y : ℚ
  rotationSpeed : ℚ
  resistance : ℚ
  vx : Option ℚ := none
  vy : Option ℚ := none
  targetX : Option ℚ := none
  targetY : Option ℚ := none
  movementTimer : Option ℚ := none
  touchingHyacinth : Option Bool := none
deriving Repr, DecidableEq

/-- `INIT_BIOMASS` from Hyacinth.tsx. -/
def INIT_BIOMASS : ℚ := 1/2

/-- `MAX_BIOMASS` from Hyacinth.tsx. -/
def MAX_BIOMASS : ℚ := 5/2

/-- `calculateGrowthRate(temperature, sunlight, nur)` from Hyacinth.tsx:
a triangular temperature factor peaked at 30°C inside [25, 35] (0.1
outside), linear sunlight, NUR normalised to its maximum 0.05, times the
base rate 0.1. -/
def calculateGrowthRate (temperature sunlight nur : ℚ) : ℚ :=
  let tempFactor : ℚ :=
    if 25 ≤ temperature ∧ temperature ≤ 35 then 1 - |temperature - 30| / 10
    else 1/10
  tempFactor * sunlight * (nur / (5/100)) * (1/10)

/-- The per-second growth step of `HyacinthSprite`'s `useTick` (the body
guarded by `biomass < MAX_BIOMASS && river.totalNutrients > 0`): biomass
grows by the freshly computed growth rate, capped at `MAX_BIOMASS`, and
`biomassGained` accumulates the same increment. -/
def growthTick (r : River) (h : Hyacinth) : Hyacinth :=
  if h.biomass < MAX_BIOMASS ∧ 0 < r.totalNutrients then
    let g := calculateGrowthRate r.temperature r.sunlight h.nur
    { h with biomass := min (h.biomass + g) MAX_BIOMASS
             biomassGained := h.biomassGained + g }
  else h

/-- The reproduction guard checked by `HyacinthSprite` after a growth
tick: accumulated biomass reaches the random threshold, the daughter
budget is not exhausted, and biomass is below the maximum. -/
def reproductionTriggered (h : Hyacinth) (threshold newBiomassGained : ℚ) : Bool :=
  (threshold ≤ newBiomassGained) &&
    (h.currentDaughters < h.futureDaughters) && (h.biomass < MAX_BIOMASS)

/-- `totalHyacinthOxygenImpact`: the `reduce` in `AgentScene`'s
dissolved-oxygen effect, summing `dissolvedOxygenImpact` over the plant
collection starting from 0. -/
def totalOxygenImpact (hs : List Hyacinth) : ℚ :=
  hs.foldl (fun s h => s + h.dissolvedOxygenImpact) 0

/-- The dissolved-oxygen recomputation in `AgentScene`:
`max(0, initialDissolvedOxygen − Σ impact − (pollutionLevel/100)·6.0)`. -/
def computeCurrentDO (r : River) (hs : List Hyacinth) : ℚ :=
  max 0 (r.initialDissolvedOxygen - totalOxygenImpact hs -
    r.pollutionLevel / 100 * 6)

/-- The per-plant patch applied by `handleHyacinthDeath` to each
survivor: clear a `parent` link to the dead plant, or else drop the dead
id from `daughters` and decrement `currentDaughters` (floored at 0). -/
def deathPatch (deadId : String) (h : Hyacinth) : Hyacinth :=
  if h.parent = some deadId then { h with parent := none }
  else if deadId ∈ h.daughters then
    { h with daughters := h.daughters.filter (fun d => d ≠ deadId)
             currentDaughters := max 0 (h.currentDaughters - 1) }
  else h

/-- `handleHyacinthDeath` from `AgentScene`: if the id is absent the
collection is returned unchanged; otherwise the dying plant is removed
and every survivor is patched. -/
def handleHyacinthDeath (deadId : String) (hs : List Hyacinth) : List Hyacinth :=
  match hs.find? (fun h => h.id == deadId) with
  | none => hs
  | some _ => (hs.filter (fun h => h.id ≠ deadId)).map (deathPatch deadId)

/-- The daughter record built by `handleHyacinthReproduction`; the
random draws (fresh id, nur, pol, DO impact, future-daughter budget) and
the placement coordinates are taken as parameters. -/
def mkDaughter (r : River) (parent : Hyacinth) (parentId daughterId : String)
    (nur pol doImpact : ℚ) (futureDaughters : ℤ) (x y : ℚ) : Hyacinth :=
  { id := daughterId
    reproduceRate := parent.reproduceRate
    x := x
    y := y
    rotationSpeed := 1/10
    resistance := parent.resistance
    biomass := INIT_BIOMASS
    nur := nur
    pol := pol
    growthRate := calculateGrowthRate r.temperature r.sunlight nur
    parent := some parentId
    daughters := []
    currentDaughters := 0
    futureDaughters := futureDaughters
    biomassGained := 0
    dissolvedOxygenImpact := doImpact
    age := 0 }

/-- `handleHyacinthReproduction` from `AgentScene`: if the parent id is
absent nothing happens; otherwise the parent gains the daughter id,
`currentDaughters + 1` and a reset `biomassGained`, and the daughter is
appended. -/
def handleHyacinthReproduction (r : River) (parentId daughterId : String)
    (nur pol doImpact : ℚ) (fd : ℤ) (x y : ℚ) (hs : List Hyacinth) :
    List Hyacinth :=
  match hs.find? (fun h => h.id == parentId) with
  | none => hs
  | some parent =>
    (hs.map (fun h =>
      if h.id = parentId then
        { h with daughters := h.daughters ++ [daughterId]
                 currentDaughters := h.currentDaughters + 1
                 biomassGained := 0 }
      else h)) ++ [mkDaughter r parent parentId daughterId nur pol doImpact fd x y]

/-- `handleFishDeath` from `AgentScene`: remove the fish by id. -/
def handleFishDeath (fishId : String) (fs : List Fish) : List Fish :=
  fs.filter (fun f => f.id ≠ fishId)

/-- The fish mortality curve of `FishSprite`'s 1-second death check
(final variant): piecewise in `currentDissolvedOxygen`, 100% at or below
0 mg/L and 0% at or above 6 mg/L, with documented bands in between. -/
def fishDeathRate (dov : ℚ) : ℚ :=
  if dov ≤ 0 then 1
  else if 6 ≤ dov then 0
  else if 4 ≤ dov then 2/100 * (1 - (dov - 4) / 2)
  else if 2 ≤ dov then
    let n := (dov - 2) / 2
    15/100 * (1 - n * n) + 2/100
  else if 1 ≤ dov then
    let n := (dov - 1) / 1
    1/2 * (1 - n * n * n) + 15/100
  else
    let n := dov / 1
    1 - 1/2 * n * n

/-- The death decision of the 1-second check: a fresh integer roll in
1..100 is compared against `deathRate * 100`; the fish dies when the
roll is at most that value. -/
def fishDieCheck (dov : ℚ) (roll : ℕ) : Bool :=
  decide ((roll : ℚ) ≤ fishDeathRate dov * 100)

/-- One sweep of the 1-second fish death check over the population: each
fish (with its own roll) that fails its check is removed from the
collection via `handleFishDeath`. -/
def fishDeathSweep (dov : ℚ) (roll : String → ℕ) (fs : List Fish) : List Fish :=
  fs.foldl
    (fun acc f => if fishDieCheck dov (roll f.id) then handleFishDeath f.id acc
      else acc) fs

/-- Simulation clock state, from `SimulationControl.ts`. -/
structure SimState where
  isPlaying : Bool
  isPaused : Bool
  globalTime : ℚ
  tickCount : ℕ
  speedMultiplier : ℚ
  dayCount : ℤ
deriving Repr, DecidableEq

/-- The module-level initial clock state. -/
def initialSimState : SimState :=
  { isPlaying := false
    isPaused := true
    globalTime := 0
    tickCount := 0
    speedMultiplier := 1
    dayCount := 0 }

/-- `isSimulationRunning()` from SimulationControl.ts. -/
def isSimulationRunning (s : SimState) : Bool :=
  s.isPlaying && !s.isPaused

/-- `resetSimulation()` from SimulationControl.ts: back to stopped with
zeroed time, tick and day counters; the speed multiplier is untouched. -/
def resetSimulation (s : SimState) : SimState :=
  { s with isPlaying := false
           isPaused := true
           globalTime := 0
           tickCount := 0
           dayCount := 0 }

/-- `updateGlobalTime(deltaTime)` from SimulationControl.ts: only when
playing and not paused, accumulate speed-scaled elapsed seconds,
increment the tick counter, and recompute `dayCount` as the floor of the
elapsed seconds. -/
def updateGlobalTime (dt : ℚ) (s : SimState) : SimState :=
  if s.isPlaying && !s.isPaused then
    let newGlobalTime := s.globalTime + dt * s.speedMultiplier / 60
    { s with globalTime := newGlobalTime
             tickCount := s.tickCount + 1
             dayCount := Int.floor newGlobalTime }
  else s

/-- `setSpeedMultiplier(speed)` from SimulationControl.ts. -/
def setSpeedMultiplier (speed : ℚ) (s : SimState) : SimState :=
  { s with speedMultiplier := max (1/10) (min 20 speed) }

/-- The whole mutable simulation state touched by one frame: clock,
river, both agent collections, and the nutrient-cadence accumulator of
`SimulationManager`. -/
structure World where
  clock : SimState
  river : River
  hyacinths : List Hyacinth
  fish : List Fish
  nutrientTimer : ℚ
deriving DecidableEq

/-- The per-frame advance: `SimulationManager`'s `useTick` and every
sprite's `useTick` begin with `if (!isSimulationRunning()) return`, so
when the clock is not running the frame leaves the world untouched; when
it is running, the clock advances via `updateGlobalTime` and the
(parameterised) environment and agent tick bodies run. -/
def frameAdvance (hyStep : ℚ → World → List Hyacinth)
    (fishStep : ℚ → World → List Fish) (envStep : ℚ → World → River × ℚ)
    (dt : ℚ) (w : World) : World :=
  if isSimulationRunning w.clock then
    { clock := updateGlobalTime dt w.clock
      river := (envStep dt w).1
      hyacinths := hyStep dt w
      fish := fishStep dt w
      nutrientTimer := (envStep dt w).2 }
  else w

/-- Modelled from the spec: the environment part of the final
`HyacinthSprite` death evaluation is not present under src (the repo
holds an earlier Hyacinth variant without a death check, while the final
`AgentScene` already wires `onDeath`); per the spec, death is immediate
and unconditional when pollution ≥ 5.0, sunlight ≤ 0 or flow ≥ 3.0. -/
def hyacinthEnvLethal (r : River) : Bool :=
  (5 ≤ r.pollutionLevel) || (r.sunlight ≤ 0) || (3 ≤ r.flowRate)

/-- Modelled from the spec: the per-plant death decision; the
biomass/age/energy conditions (whose exact constants are not in src) are
abstracted as a parameter, combined disjunctively with the lethal
environment thresholds. -/
def hyacinthShouldDie (other : Hyacinth → Bool) (r : River) (h : Hyacinth) : Bool :=
  hyacinthEnvLethal r || other h

/-- Modelled from the spec: one tick's plant death evaluation over the
population: every plant whose death condition fires is removed through
`handleHyacinthDeath` (which is in src). -/
def plantDeathSweep (other : Hyacinth → Bool) (r : River) (hs : List Hyacinth) :
    List Hyacinth :=
  hs.foldl
    (fun acc h => if hyacinthShouldDie other r h then handleHyacinthDeath h.id acc
      else acc) hs

/-- Sample plant used to instantiate hypotheses of the theorems below. -/
def plantA : Hyacinth :=
  { id := "a"
    reproduceRate := 1
    x := 0
    y := 0
    rotationSpeed := 1/10
    resistance := 1/2
    biomass := 1/2
    nur := 1/50
    pol := 1/20
    growthRate := 0
    parent := none
    daughters := ["b"]
    currentDaughters := 1
    futureDaughters := 2
    biomassGained := 0
    dissolvedOxygenImpact := 1/25
    age := 0 }

/-- Sample daughter plant of `plantA`. -/
def plantB : Hyacinth :=
  { id := "b"
    reproduceRate := 1
    x := 3
    y := 4
    rotationSpeed := 1/10
    resistance := 1/2
    biomass := 1/2
    nur := 1/25
    pol := 1/20
    growthRate := 0
    parent := some "a"
    daughters := []
    currentDaughters := 0
    futureDaughters := 1
    biomassGained := 0
    dissolvedOxygenImpact := 1/20
    age := 0 }

/-- Sample fish used to instantiate hypotheses of the theorems below. -/
def fishA : Fish :=
  { id := "f1"
    reproduceRate := 1/20
    x := 5
    y := 5
    rotationSpeed := 1/10
    resistance := 3/4 }

/-- Second sample fish. -/
def fishB : Fish :=
  { id := "f2"
    reproduceRate := 1/20
    x := 9
    y := 2
    rotationSpeed := 1/10
    resistance := 1/2 }

/-- A fresh id used when instantiating the reproduction handler. -/
def newPlantId : String := "c"

/-- The reproduction-budget invariant: every plant has a non-negative
`currentDaughters` that does not exceed its `futureDaughters`. -/
def DaughterBudgetInv (hs : List Hyacinth) : Prop :=
  ∀ h ∈ hs, 0 ≤ h.currentDaughters ∧ h.currentDaughters ≤ h.futureDaughters

/-- Folding addition of a projection equals the sum of the mapped list,
for any starting accumulator. -/
theorem foldl_add_proj (f : Hyacinth → ℚ) :
    ∀ (hs : List Hyacinth) (s : ℚ),
      hs.foldl (fun acc h => acc + f h) s = s + (hs.map f).sum := by
  intro hs
  induction hs with
  | nil => intro s; simp
  | cons a l ih =>
      intro s
      simp only [List.foldl_cons, List.map_cons, List.sum_cons]
      rw [ih]
      ring

/-- C1. Whenever the dissolved-oxygen level is recomputed from the plant
set, the result equals `max 0 (initialDissolvedOxygen − Σ
dissolvedOxygenImpact − (pollutionLevel/100)·6.0)`; it is a
non-increasing function of the total plant impact sum and of
`pollutionLevel` (initial oxygen fixed), and it is never negative. -/
theorem currentDO_formula_monotone_nonneg :
    (∀ (r : River) (hs : List Hyacinth),
      computeCurrentDO r hs =
        max 0 (r.initialDissolvedOxygen -
          (hs.map (fun h => h.dissolvedOxygenImpact)).sum -
          r.pollutionLevel / 100 * 6)) ∧
    (∀ (r : River) (hs₁ hs₂ : List Hyacinth),
      totalOxygenImpact hs₁ ≤ totalOxygenImpact hs₂ →
      computeCurrentDO r hs₂ ≤ computeCurrentDO r hs₁) ∧
    (∀ (r : River) (p₁ p₂ : ℚ) (hs : List Hyacinth), p₁ ≤ p₂ →
      computeCurrentDO { r with pollutionLevel := p₂ } hs ≤
        computeCurrentDO { r with pollutionLevel := p₁ } hs) ∧
    (∀ (r : River) (hs : List Hyacinth), 0 ≤ computeCurrentDO r hs) := by
  refine ⟨?_, ?_, ?_, ?_⟩
  · intro r hs
    unfold computeCurrentDO totalOxygenImpact
    rw [foldl_add_proj]
    ring_nf
  · intro r hs₁ hs₂ himp
    unfold computeCurrentDO
    exact max_le_max le_rfl (by linarith)
  · intro r p₁ p₂ hs hp
    unfold computeCurrentDO
    exact max_le_max le_rfl (by simp only; linarith)
  · intro r hs
    exact le_max_left 0 _

/-- Witness for `currentDO_formula_monotone_nonneg` at concrete inputs. -/
theorem currentDO_formula_monotone_nonneg_witness :
    computeCurrentDO createRiver [plantA, plantB] ≤
      computeCurrentDO createRiver [plantA] ∧
    computeCurrentDO { createRiver with pollutionLevel := 80 } [plantA] ≤
      computeCurrentDO { createRiver with pollutionLevel := 20 } [plantA] ∧
    0 ≤ computeCurrentDO createRiver [plantA, plantB] := by
  refine ⟨?_, ?_, ?_⟩
  · exact currentDO_formula_monotone_nonneg.2.1 createRiver [plantA] [plantA, plantB]
      (by norm_num [totalOxygenImpact, plantA, plantB])
  · exact currentDO_formula_monotone_nonneg.2.2.1 createRiver 20 80 [plantA]
      (by norm_num)
  · exact currentDO_formula_monotone_nonneg.2.2.2 createRiver [plantA, plantB]

/-- C3. On a 1-second growth tick: with nutrients available and biomass
below the maximum, biomass grows by exactly
`tempFactor · sunlight · (nur/0.05) · 0.1` (capped at `MAX_BIOMASS`,
which is 2.5) and `biomassGained` accumulates the same amount; with an
empty nutrient stock the plant is unchanged, over any number of ticks. -/
theorem growth_tick_spec :
    (∀ (r : River) (h : Hyacinth),
      calculateGrowthRate r.temperature r.sunlight h.nur =
        (if 25 ≤ r.temperature ∧ r.temperature ≤ 35 then
            1 - |r.temperature - 30| / 10
          else 1/10) * r.sunlight * (h.nur / (5/100)) * (1/10)) ∧
    MAX_BIOMASS = 5/2 ∧
    (∀ (r : River) (h : Hyacinth), 0 < r.totalNutrients →
      h.biomass < MAX_BIOMASS →
      (growthTick r h).biomass =
        min (h.biomass + calculateGrowthRate r.temperature r.sunlight h.nur)
          MAX_BIOMASS ∧
      (growthTick r h).biomassGained =
        h.biomassGained + calculateGrowthRate r.temperature r.sunlight h.nur) ∧
    (∀ (r : River) (h : Hyacinth), r.totalNutrients ≤ 0 →
      growthTick r h = h) ∧
    (∀ (r : River) (h : Hyacinth) (n : ℕ), r.totalNutrients ≤ 0 →
      (growthTick r)^[n] h = h) := by
  have hnone : ∀ (r : River) (h : Hyacinth), r.totalNutrients ≤ 0 →
      growthTick r h = h := by
    intro r h hr
    unfold growthTick
    rw [if_neg]
    rintro ⟨-, hpos⟩
    exact absurd hr (not_le.mpr hpos)
  refine ⟨fun r h => rfl, rfl, ?_, hnone, ?_⟩
  · intro r h hr hb
    unfold growthTick
    rw [if_pos ⟨hb, hr⟩]
    exact ⟨rfl, rfl⟩
  · intro r h n hr
    induction n with
    | zero => rfl
    | succ k ih => rw [Function.iterate_succ_apply, hnone r h hr, ih]

/-- Witness for `growth_tick_spec` at concrete inputs. -/
theorem growth_tick_spec_witness :
    ((growthTick createRiver plantA).biomass =
        min (plantA.biomass +
          calculateGrowthRate createRiver.temperature createRiver.sunlight
            plantA.nur) MAX_BIOMASS ∧
      (growthTick createRiver plantA).biomassGained =
        plantA.biomassGained +
          calculateGrowthRate createRiver.temperature createRiver.sunlight
            plantA.nur) ∧
    growthTick { createRiver with totalNutrients := 0 } plantA = plantA ∧
    (growthTick { createRiver with totalNutrients := 0 })^[10] plantA = plantA := by
  refine ⟨?_, ?_, ?_⟩
  · exact growth_tick_spec.2.2.1 createRiver plantA
      (by norm_num [createRiver]) (by norm_num [plantA, MAX_BIOMASS])
  · exact growth_tick_spec.2.2.2.1 { createRiver with totalNutrients := 0 } plantA
      (by norm_num)
  · exact growth_tick_spec.2.2.2.2 { createRiver with totalNutrients := 0 } plantA 10
      (by norm_num)

/-- C9. `resetSimulation` zeroes elapsed time, tick count and day count,
returns the clock to the stopped state (not playing, paused), and keeps
the speed multiplier exactly as it was. -/
theorem reset_simulation_spec (s : SimState) :
    (resetSimulation s).isPlaying = false ∧
    (resetSimulation s).isPaused = true ∧
    (resetSimulation s).globalTime = 0 ∧
    (resetSimulation s).tickCount = 0 ∧
    (resetSimulation s).dayCount = 0 ∧
    (resetSimulation s).speedMultiplier = s.speedMultiplier :=
  ⟨rfl, rfl, rfl, rfl, rfl, rfl⟩

/-- C8. While the clock is not running, `updateGlobalTime` leaves the
clock unchanged, and any sequence of per-frame advances with arbitrary
delta times leaves the whole world (clock fields, river, agents, timer
accumulator) exactly unchanged. -/
theorem advance_noop_while_not_running :
    (∀ (dt : ℚ) (s : SimState), (s.isPlaying && !s.isPaused) = false →
      updateGlobalTime dt s = s) ∧
    (∀ (hyStep : ℚ → World → List Hyacinth)
      (fishStep : ℚ → World → List Fish) (envStep : ℚ → World → River × ℚ)
      (dts : List ℚ) (w : World), isSimulationRunning w.clock = false →
      dts.foldl (fun w2 dt => frameAdvance hyStep fishStep envStep dt w2) w = w) := by
  have hclock : ∀ (dt : ℚ) (s : SimState), (s.isPlaying && !s.isPaused) = false →
      updateGlobalTime dt s = s := by
    intro dt s hs
    unfold updateGlobalTime
    rw [hs]
    rfl
  refine ⟨hclock, ?_⟩
  intro hyStep fishStep envStep dts
  induction dts with
  | nil => intro w _; rfl
  | cons d l ih =>
      intro w hw
      have hstep : frameAdvance hyStep fishStep envStep d w = w := by
        unfold frameAdvance
        rw [hw]
        rfl
      rw [List.foldl_cons, hstep, ih w hw]

/-- Witness for `advance_noop_while_not_running` at concrete inputs. -/
theorem advance_noop_while_not_running_witness :
    updateGlobalTime 1 initialSimState = initialSimState ∧
    [1, 2, (1/2 : ℚ)].foldl
      (fun w2 dt => frameAdvance (fun _ w => w.hyacinths) (fun _ w => w.fish)
        (fun _ w => (w.river, w.nutrientTimer)) dt w2)
      { clock := initialSimState
        river := createRiver
        hyacinths := [plantA, plantB]
        fish := [fishA]
        nutrientTimer := 0 } =
      { clock := initialSimState
        river := createRiver
        hyacinths := [plantA, plantB]
        fish := [fishA]
        nutrientTimer := 0 } := by
  constructor
  · exact advance_noop_while_not_running.1 1 initialSimState rfl
  · exact advance_noop_while_not_running.2 (fun _ w => w.hyacinths)
      (fun _ w => w.fish) (fun _ w => (w.river, w.nutrientTimer))
      [1, 2, (1/2 : ℚ)] _ rfl

/-- C7 counterexample. `updateRiver` does not clamp `totalNutrients`: a
negative nutrient stock supplied through the mutation boundary
propagates as negative state. -/
theorem updateRiver_negative_nutrients_propagate :
    (updateRiver { totalNutrients := some (-5) } createRiver).totalNutrients < 0 := by
  norm_num [updateRiver]

/-- C7 (amended). `updateRiver` clamps only the two dissolved-oxygen
fields into [0, 7] (so oxygen values in range stay in range, and any
supplied oxygen value lands in range); `totalNutrients` and
`pollutionLevel` are merged verbatim, with no clamping. -/
theorem updateRiver_clamping_spec :
    (∀ (u : RiverUpdates) (r : River),
      0 ≤ r.initialDissolvedOxygen → r.initialDissolvedOxygen ≤ 7 →
      0 ≤ (updateRiver u r).initialDissolvedOxygen ∧
        (updateRiver u r).initialDissolvedOxygen ≤ 7) ∧
    (∀ (u : RiverUpdates) (r : River),
      0 ≤ r.currentDissolvedOxygen → r.currentDissolvedOxygen ≤ 7 →
      0 ≤ (updateRiver u r).currentDissolvedOxygen ∧
        (updateRiver u r).currentDissolvedOxygen ≤ 7) ∧
    (∀ (u : RiverUpdates) (r : River) (v : ℚ), u.totalNutrients = some v →
      (updateRiver u r).totalNutrients = v) ∧
    (∀ (u : RiverUpdates) (r : River) (v : ℚ), u.pollutionLevel = some v →
      (updateRiver u r).pollutionLevel = v) := by
  refine ⟨?_, ?_, ?_, ?_⟩
  · intro u r h0 h7
    unfold updateRiver
    cases hu : u.initialDissolvedOxygen with
    | none => simpa [hu] using ⟨h0, h7⟩
    | some v =>
        simp only [hu, Option.map_some, Option.getD_some]
        constructor
        · exact le_min (by norm_num) (le_max_left 0 v)
        · exact min_le_left 7 _
  · intro u r h0 h7
    unfold updateRiver
    cases hu : u.currentDissolvedOxygen with
    | none => simpa [hu] using ⟨h0, h7⟩
    | some v =>
        simp only [hu, Option.map_some, Option.getD_some]
        constructor
        · exact le_min (by norm_num) (le_max_left 0 v)
        · exact min_le_left 7 _
  · intro u r v hv
    unfold updateRiver
    simp [hv]
  · intro u r v hv
    unfold updateRiver
    simp [hv]

/-- Witness for `updateRiver_clamping_spec` at concrete inputs. -/
theorem updateRiver_clamping_spec_witness :
    (0 ≤ (updateRiver { initialDissolvedOxygen := some 99 } createRiver).initialDissolvedOxygen ∧
      (updateRiver { initialDissolvedOxygen := some 99 } createRiver).initialDissolvedOxygen ≤ 7) ∧
    (0 ≤ (updateRiver { currentDissolvedOxygen := some (-3) } createRiver).currentDissolvedOxygen ∧
      (updateRiver { currentDissolvedOxygen := some (-3) } createRiver).currentDissolvedOxygen ≤ 7) ∧
    (updateRiver { totalNutrients := some (-5) } createRiver).totalNutrients = -5 ∧
    (updateRiver { pollutionLevel := some (-2) } createRiver).pollutionLevel = -2 := by
  refine ⟨?_, ?_, ?_, ?_⟩
  · exact updateRiver_clamping_spec.1 { initialDissolvedOxygen := some 99 }
      createRiver (by norm_num [createRiver]) (by norm_num [createRiver])
  · exact updateRiver_clamping_spec.2.1 { currentDissolvedOxygen := some (-3) }
      createRiver (by norm_num [createRiver]) (by norm_num [createRiver])
  · exact updateRiver_clamping_spec.2.2.1 { totalNutrients := some (-5) }
      createRiver (-5) rfl
  · exact updateRiver_clamping_spec.2.2.2 { pollutionLevel := some (-2) }
      createRiver (-2) rfl

/-- On the non-positive branch the mortality curve is 1. -/
theorem fishDeathRate_nonpos (d : ℚ) (h : d ≤ 0) : fishDeathRate d = 1 := by
  unfold fishDeathRate
  rw [if_pos h]

/-- At or above 6 mg/L the mortality curve is 0. -/
theorem fishDeathRate_ge6 (d : ℚ) (h : 6 ≤ d) : fishDeathRate d = 0 := by
  unfold fishDeathRate
  rw [if_neg (by linarith), if_pos h]

/-- Band [4, 6) of the mortality curve. -/
theorem fishDeathRate_band46 (d : ℚ) (h4 : 4 ≤ d) (h6 : d < 6) :
    fishDeathRate d = 2/100 * (1 - (d - 4) / 2) := by
  unfold fishDeathRate
  rw [if_neg (by linarith), if_neg (by linarith), if_pos h4]

/-- Band [2, 4) of the mortality curve. -/
theorem fishDeathRate_band24 (d : ℚ) (h2 : 2 ≤ d) (h4 : d < 4) :
    fishDeathRate d = 15/100 * (1 - (d - 2) / 2 * ((d - 2) / 2)) + 2/100 := by
  unfold fishDeathRate
  rw [if_neg (by linarith), if_neg (by linarith), if_neg (by linarith), if_pos h2]

/-- Band [1, 2) of the mortality curve. -/
theorem fishDeathRate_band12 (d : ℚ) (h1 : 1 ≤ d) (h2 : d < 2) :
    fishDeathRate d =
      1/2 * (1 - (d - 1) / 1 * ((d - 1) / 1) * ((d - 1) / 1)) + 15/100 := by
  unfold fishDeathRate
  rw [if_neg (by linarith), if_neg (by linarith), if_neg (by linarith),
    if_neg (by linarith), if_pos h1]

/-- Band (0, 1) of the mortality curve. -/
theorem fishDeathRate_band01 (d : ℚ) (h0 : 0 < d) (h1 : d < 1) :
    fishDeathRate d = 1 - 1/2 * (d / 1) * (d / 1) := by
  unfold fishDeathRate
  rw [if_neg (by linarith), if_neg (by linarith), if_neg (by linarith),
    if_neg (by linarith), if_neg (by linarith)]

/-- The mortality curve never exceeds 1. -/
theorem fishDeathRate_le_one (d : ℚ) : fishDeathRate d ≤ 1 := by
  rcases le_or_lt d 0 with h | h
  · rw [fishDeathRate_nonpos d h]
  · rcases le_or_lt 6 d with h6 | h6
    · rw [fishDeathRate_ge6 d h6]; norm_num
    · rcases le_or_lt 4 d with h4 | h4
      · rw [fishDeathRate_band46 d h4 h6]; nlinarith
      · rcases le_or_lt 2 d with h2 | h2
        · rw [fishDeathRate_band24 d h2 h4]
          nlinarith [mul_self_nonneg ((d - 2) / 2)]
        · rcases le_or_lt 1 d with h1 | h1
          · rw [fishDeathRate_band12 d h1 h2]
            have hn : (0 : ℚ) ≤ (d - 1) / 1 := by linarith
            nlinarith [mul_nonneg (mul_nonneg hn hn) hn]
          · rw [fishDeathRate_band01 d h h1]
            nlinarith [mul_self_nonneg (d / 1)]

/-- The mortality curve is never negative. -/
theorem fishDeathRate_nonneg (d : ℚ) : 0 ≤ fishDeathRate d := by
  rcases le_or_lt d 0 with h | h
  · rw [fishDeathRate_nonpos d h]; norm_num
  · rcases le_or_lt 6 d with h6 | h6
    · rw [fishDeathRate_ge6 d h6]
    · rcases le_or_lt 4 d with h4 | h4
      · rw [fishDeathRate_band46 d h4 h6]; nlinarith
      · rcases le_or_lt 2 d with h2 | h2
        · rw [fishDeathRate_band24 d h2 h4]; nlinarith
        · rcases le_or_lt 1 d with h1 | h1
          · rw [fishDeathRate_band12 d h1 h2]
            have hn0 : (0 : ℚ) ≤ (d - 1) / 1 := by linarith
            have hn1 : (d - 1) / 1 ≤ 1 := by linarith
            nlinarith
          · rw [fishDeathRate_band01 d h h1]; nlinarith

/-- C2 counterexample. The mortality curve is not globally
non-increasing: the oxygen values 0.9 ≤ 1 satisfy
`fishDeathRate 0.9 < fishDeathRate 1` (0.595 < 0.65), an upward jump at
the 1.0 mg/L band boundary, refuting the claimed monotonicity. -/
theorem fish_death_rate_monotonicity_fails :
    ((9 : ℚ)/10 ≤ 1) ∧ fishDeathRate ((9 : ℚ)/10) < fishDeathRate 1 := by
  constructor
  · norm_num
  · rw [fishDeathRate_band01 _ (by norm_num) (by norm_num),
      fishDeathRate_band12 1 le_rfl (by norm_num)]
    norm_num

/-- C2 (amended). The mortality curve equals 1 at and below 0 mg/L,
equals 0 at and above 6 mg/L, and is non-increasing within each band
region (below 1 mg/L, on [1, 2), and on [2, ∞)) — though not across the
upward jumps at 1.0 and 2.0 mg/L — and the 1-second death check at zero
oxygen removes every fish from the collection. -/
theorem fish_death_rate_bandwise_spec :
    (∀ d : ℚ, d ≤ 0 → fishDeathRate d = 1) ∧
    (∀ d : ℚ, 6 ≤ d → fishDeathRate d = 0) ∧
    (∀ a b : ℚ, a ≤ b → b < 1 → fishDeathRate b ≤ fishDeathRate a) ∧
    (∀ a b : ℚ, 1 ≤ a → a ≤ b → b < 2 → fishDeathRate b ≤ fishDeathRate a) ∧
    (∀ a b : ℚ, 2 ≤ a → a ≤ b → fishDeathRate b ≤ fishDeathRate a) ∧
    (∀ (roll : String → ℕ) (fs : List Fish), (∀ f ∈ fs, roll f.id ≤ 100) →
      fishDeathSweep 0 roll fs = []) := by
  refine ⟨fishDeathRate_nonpos, fishDeathRate_ge6, ?_, ?_, ?_, ?_⟩
  · intro a b hab hb1
    rcases le_or_lt a 0 with ha | ha
    · rw [fishDeathRate_nonpos a ha]
      exact fishDeathRate_le_one b
    · rw [fishDeathRate_band01 a ha (lt_of_le_of_lt hab hb1),
        fishDeathRate_band01 b (lt_of_lt_of_le ha hab) hb1]
      nlinarith
  · intro a b ha hab hb2
    rw [fishDeathRate_band12 a ha (lt_of_le_of_lt hab hb2),
      fishDeathRate_band12 b (le_trans ha hab) hb2]
    have hna : (0 : ℚ) ≤ (a - 1) / 1 := by linarith
    have hnb : (0 : ℚ) ≤ (b - 1) / 1 := by linarith
    have hns : (a - 1) / 1 ≤ (b - 1) / 1 := by linarith
    nlinarith [mul_nonneg hna hna, mul_nonneg hnb hnb, mul_nonneg hna hnb,
      mul_nonneg (mul_nonneg hna hna) hnb, mul_nonneg (mul_nonneg hna hnb) hnb]
  · intro a b ha hab
    rcases le_or_lt 6 b with hb6 | hb6
    · rw [fishDeathRate_ge6 b hb6]
      exact fishDeathRate_nonneg a
    · rcases le_or_lt 4 b with hb4 | hb4
      · rcases le_or_lt 4 a with ha4 | ha4
        · rw [fishDeathRate_band46 a ha4 (lt_of_le_of_lt hab hb6),
            fishDeathRate_band46 b hb4 hb6]
          linarith
        · rw [fishDeathRate_band24 a ha ha4, fishDeathRate_band46 b hb4 hb6]
          nlinarith [mul_self_nonneg ((a - 2) / 2)]
      · rw [fishDeathRate_band24 a ha (lt_of_le_of_lt hab hb4),
          fishDeathRate_band24 b (le_trans ha hab) hb4]
        have hna : (0 : ℚ) ≤ (a - 2) / 2 := by linarith
        have hns : (a - 2) / 2 ≤ (b - 2) / 2 := by linarith
        nlinarith
  · intro roll fs hroll
    have hcheck : ∀ f ∈ fs, fishDieCheck 0 (roll f.id) = true := by
      intro f hf
      unfold fishDieCheck
      rw [fishDeathRate_nonpos 0 le_rfl, decide_eq_true_eq]
      have : (roll f.id : ℚ) ≤ 100 := by exact_mod_cast hroll f hf
      linarith
    have haux : ∀ (l acc : List Fish),
        (∀ f ∈ l, fishDieCheck 0 (roll f.id) = true) →
        ∀ y ∈ l.foldl
          (fun acc2 f => if fishDieCheck 0 (roll f.id) then
            handleFishDeath f.id acc2 else acc2) acc,
          y ∈ acc ∧ ∀ f ∈ l, y.id ≠ f.id := by
      intro l
      induction l with
      | nil =>
          intro acc _ y hy
          exact ⟨hy, by simp⟩
      | cons a l ih =>
          intro acc hall y hy
          rw [List.foldl_cons, if_pos (hall a (by simp))] at hy
          obtain ⟨hyacc, hnel⟩ :=
            ih (handleFishDeath a.id acc) (fun f hf => hall f (by simp [hf])) y hy
          have hmem : y ∈ acc ∧ y.id ≠ a.id := by
            unfold handleFishDeath at hyacc
            rw [List.mem_filter] at hyacc
            exact ⟨hyacc.1, by simpa using hyacc.2⟩
          refine ⟨hmem.1, ?_⟩
          intro f hf
          rcases List.mem_cons.mp hf with rfl | hf2
          · exact hmem.2
          · exact hnel f hf2
    rw [List.eq_nil_iff_forall_not_mem]
    intro y hy
    obtain ⟨hyfs, hne⟩ := haux fs fs hcheck y hy
    exact hne y hyfs rfl

/-- Witness for `fish_death_rate_bandwise_spec` at concrete inputs. -/
theorem fish_death_rate_bandwise_spec_witness :
    fishDeathRate (-1) = 1 ∧ fishDeathRate 7 = 0 ∧
    fishDeathRate (1/2) ≤ fishDeathRate (1/4) ∧
    fishDeathRate (3/2) ≤ fishDeathRate (5/4) ∧
    fishDeathRate 5 ≤ fishDeathRate 3 ∧
    fishDeathSweep 0 (fun _ => 50) [fishA, fishB] = [] := by
  refine ⟨?_, ?_, ?_, ?_, ?_, ?_⟩
  · exact fish_death_rate_bandwise_spec.1 (-1) (by norm_num)
  · exact fish_death_rate_bandwise_spec.2.1 7 (by norm_num)
  · exact fish_death_rate_bandwise_spec.2.2.1 (1/4) (1/2) (by norm_num) (by norm_num)
  · exact fish_death_rate_bandwise_spec.2.2.2.1 (5/4) (3/2) (by norm_num)
      (by norm_num) (by norm_num)
  · exact fish_death_rate_bandwise_spec.2.2.2.2.1 3 5 (by norm_num) (by norm_num)
  · exact fish_death_rate_bandwise_spec.2.2.2.2.2 (fun _ => 50) [fishA, fishB]
      (by intro f _; norm_num)

/-- The death patch never changes a plant's id. -/
theorem deathPatch_id (d : String) (h : Hyacinth) : (deathPatch d h).id = h.id := by
  unfold deathPatch
  split_ifs <;> rfl

/-- The death patch never produces a `parent` link to the dead id. -/
theorem deathPatch_parent_ne (d : String) (h : Hyacinth) :
    (deathPatch d h).parent ≠ some d := by
  unfold deathPatch
  split_ifs with h1 h2
  · simp
  · simpa using h1
  · simpa using h1

/-- When the plant's parent is not the dead id, the patch keeps the
parent link. -/
theorem deathPatch_parent_of_ne (d : String) (h : Hyacinth)
    (hp : h.parent ≠ some d) : (deathPatch d h).parent = h.parent := by
  unfold deathPatch
  rw [if_neg hp]
  split_ifs <;> rfl

/-- The patch leaves `currentDaughters` alone or replaces it by
`max 0 (currentDaughters − 1)`, and never changes `futureDaughters`. -/
theorem deathPatch_daughters_cases (d : String) (h : Hyacinth) :
    ((deathPatch d h).currentDaughters = h.currentDaughters ∨
      (deathPatch d h).currentDaughters = max 0 (h.currentDaughters - 1)) ∧
    (deathPatch d h).futureDaughters = h.futureDaughters := by
  unfold deathPatch
  split_ifs <;> simp

/-- Every member of `handleHyacinthDeath deadId hs` has an id distinct
from `deadId` and shared with some member of the input. -/
theorem mem_handleHyacinthDeath {y : Hyacinth} {deadId : String}
    {hs : List Hyacinth} (hy : y ∈ handleHyacinthDeath deadId hs) :
    y.id ≠ deadId ∧ ∃ x ∈ hs, y.id = x.id := by
  unfold handleHyacinthDeath at hy
  cases hfind : hs.find? (fun h => h.id == deadId) with
  | none =>
      rw [hfind] at hy
      have hnone := List.find?_eq_none.mp hfind
      refine ⟨?_, ⟨y, hy, rfl⟩⟩
      intro hid
      exact hnone y hy (by simp [hid])
  | some p =>
      rw [hfind] at hy
      rcases List.mem_map.mp hy with ⟨x, hx, hxy⟩
      rcases List.mem_filter.mp hx with ⟨hxmem, hxid⟩
      have hxne : x.id ≠ deadId := by simpa using hxid
      have hid : y.id = x.id := by rw [← hxy, deathPatch_id]
      exact ⟨by rw [hid]; exact hxne, ⟨x, hxmem, hid⟩⟩

/-- When the dying id is present, the death handler is exactly the
filter-then-patch of the source. -/
theorem handleHyacinthDeath_of_present {deadId : String} {hs : List Hyacinth}
    (hp : ∃ x ∈ hs, x.id = deadId) :
    handleHyacinthDeath deadId hs =
      (hs.filter (fun h => h.id ≠ deadId)).map (deathPatch deadId) := by
  obtain ⟨w, hw, hwid⟩ := hp
  unfold handleHyacinthDeath
  cases hfind : hs.find? (fun h => h.id == deadId) with
  | none => exact absurd (by simp [hwid]) (List.find?_eq_none.mp hfind w hw)
  | some p => rfl

/-- A population in which every plant death condition fires is emptied
by one sweep of death evaluations. -/
theorem plantDeathSweep_all_die (other : Hyacinth → Bool) (r : River)
    (hs : List Hyacinth) (hall : ∀ h ∈ hs, hyacinthShouldDie other r h = true) :
    plantDeathSweep other r hs = [] := by
  have haux : ∀ (l acc : List Hyacinth),
      (∀ h ∈ l, hyacinthShouldDie other r h = true) →
      ∀ y ∈ l.foldl
        (fun acc2 h => if hyacinthShouldDie other r h then
          handleHyacinthDeath h.id acc2 else acc2) acc,
        (∃ x ∈ acc, y.id = x.id) ∧ ∀ h ∈ l, y.id ≠ h.id := by
    intro l
    induction l with
    | nil =>
        intro acc _ y hy
        exact ⟨⟨y, hy, rfl⟩, by simp⟩
    | cons a l ih =>
        intro acc hall2 y hy
        rw [List.foldl_cons, if_pos (hall2 a (by simp))] at hy
        obtain ⟨⟨z, hz, hzid⟩, hnel⟩ :=
          ih (handleHyacinthDeath a.id acc) (fun h hh => hall2 h (by simp [hh])) y hy
        obtain ⟨hzne, x, hx, hzx⟩ := mem_handleHyacinthDeath hz
        refine ⟨⟨x, hx, by rw [hzid, hzx]⟩, ?_⟩
        intro h hh
        rcases List.mem_cons.mp hh with rfl | hh2
        · rw [hzid]; exact hzne
        · exact hnel h hh2
  rw [List.eq_nil_iff_forall_not_mem]
  intro y hy
  obtain ⟨⟨x, hx, hyx⟩, hne⟩ := haux hs hs hall y hy
  exact hne x hx hyx

/-- C6. Plant death is immediate and unconditional once the lethal
environment thresholds are crossed (pollution ≥ 5.0, sunlight ≤ 0 or
flow ≥ 3.0); in particular, with `pollutionLevel = 100` a single tick's
death evaluation removes every plant from the collection, whatever the
remaining (plant-local) death conditions decide. -/
theorem lethal_environment_kills_all_plants :
    (∀ (r : River) (other : Hyacinth → Bool) (h : Hyacinth),
      5 ≤ r.pollutionLevel ∨ r.sunlight ≤ 0 ∨ 3 ≤ r.flowRate →
      hyacinthShouldDie other r h = true) ∧
    (∀ (r : River) (other : Hyacinth → Bool) (hs : List Hyacinth),
      r.pollutionLevel = 100 → plantDeathSweep other r hs = []) := by
  have hdie : ∀ (r : River) (other : Hyacinth → Bool) (h : Hyacinth),
      5 ≤ r.pollutionLevel ∨ r.sunlight ≤ 0 ∨ 3 ≤ r.flowRate →
      hyacinthShouldDie other r h = true := by
    intro r other h hcase
    unfold hyacinthShouldDie hyacinthEnvLethal
    rcases hcase with hc | hc | hc <;> simp [hc]
  refine ⟨hdie, ?_⟩
  intro r other hs hp
  exact plantDeathSweep_all_die other r hs
    (fun h _ => hdie r other h (Or.inl (by rw [hp]; norm_num)))

/-- Witness for `lethal_environment_kills_all_plants` at concrete
inputs. -/
theorem lethal_environment_kills_all_plants_witness :
    hyacinthShouldDie (fun _ => false) { createRiver with pollutionLevel := 100 }
      plantA = true ∧
    plantDeathSweep (fun _ => false) { createRiver with pollutionLevel := 100 }
      [plantA, plantB] = [] := by
  constructor
  · exact lethal_environment_kills_all_plants.1
      { createRiver with pollutionLevel := 100 } (fun _ => false) plantA
      (Or.inl (by norm_num))
  · exact lethal_environment_kills_all_plants.2
      { createRiver with pollutionLevel := 100 } (fun _ => false)
      [plantA, plantB] rfl

/-- C4. The reproduction budget `0 ≤ currentDaughters ≤ futureDaughters`
is preserved by every operation: the sprite's reproduction guard only
fires when `currentDaughters < futureDaughters`; the reproduction
handler (which adds 1 to the parent and starts the daughter at 0 with a
positive budget) preserves the invariant under that guard; the death
handler preserves it unconditionally, since its cleanup decrements
`currentDaughters` by at most 1 and never below 0. -/
theorem daughter_budget_invariant :
    (∀ (h : Hyacinth) (thr g : ℚ), reproductionTriggered h thr g = true →
      h.currentDaughters < h.futureDaughters) ∧
    (∀ (r : River) (pid did : String) (nur pol doi : ℚ) (fd : ℤ) (x y : ℚ)
      (hs : List Hyacinth), DaughterBudgetInv hs →
      (∀ h ∈ hs, h.id = pid → h.currentDaughters < h.futureDaughters) →
      1 ≤ fd →
      DaughterBudgetInv (handleHyacinthReproduction r pid did nur pol doi fd x y hs)) ∧
    (∀ (did : String) (hs : List Hyacinth), DaughterBudgetInv hs →
      DaughterBudgetInv (handleHyacinthDeath did hs)) ∧
    (∀ (did : String) (hs : List Hyacinth), ∀ y ∈ handleHyacinthDeath did hs,
      ∃ x ∈ hs, y.id = x.id ∧
        (y.currentDaughters = x.currentDaughters ∨
          y.currentDaughters = max 0 (x.currentDaughters - 1))) := by
  refine ⟨?_, ?_, ?_, ?_⟩
  · intro h thr g htrig
    unfold reproductionTriggered at htrig
    simp only [Bool.and_eq_true, decide_eq_true_eq] at htrig
    exact htrig.1.2
  · intro r pid did nur pol doi fd x y hs hinv hguard hfd
    unfold handleHyacinthReproduction
    cases hfind : hs.find? (fun h => h.id == pid) with
    | none => exact hinv
    | some parent =>
        intro z hz
        rcases List.mem_append.mp hz with hz1 | hz2
        · rcases List.mem_map.mp hz1 with ⟨w, hw, hwz⟩
          by_cases hid : w.id = pid
          · rw [if_pos hid] at hwz
            have hwcd := hguard w hw hid
            have hwinv := hinv w hw
            rw [← hwz]
            constructor
            · simp only
              linarith [hwinv.1]
            · simp only
              linarith [hwcd]
          · rw [if_neg hid] at hwz
            rw [← hwz]
            exact hinv w hw
        · have hzd : z = mkDaughter r parent pid did nur pol doi fd x y := by
            simpa using hz2
          rw [hzd]
          constructor
          · exact le_rfl
          · simp only [mkDaughter]
            linarith
  · intro did hs hinv y hy
    unfold handleHyacinthDeath at hy
    cases hfind : hs.find? (fun h => h.id == did) with
    | none =>
        rw [hfind] at hy
        exact hinv y hy
    | some p =>
        rw [hfind] at hy
        rcases List.mem_map.mp hy with ⟨x, hx, hxy⟩
        have hxmem : x ∈ hs := (List.mem_filter.mp hx).1
        have hxinv := hinv x hxmem
        obtain ⟨hcd, hfd⟩ := deathPatch_daughters_cases did x
        rw [← hxy, hfd]
        rcases hcd with hsame | hdec
        · rw [hsame]; exact hxinv
        · rw [hdec]
          constructor
          · exact le_max_left 0 _
          · exact max_le (le_trans hxinv.1 hxinv.2) (by linarith [hxinv.2])
  · intro did hs y hy
    unfold handleHyacinthDeath at hy
    cases hfind : hs.find? (fun h => h.id == did) with
    | none =>
        rw [hfind] at hy
        exact ⟨y, hy, rfl, Or.inl rfl⟩
    | some p =>
        rw [hfind] at hy
        rcases List.mem_map.mp hy with ⟨x, hx, hxy⟩
        have hxmem : x ∈ hs := (List.mem_filter.mp hx).1
        obtain ⟨hcd, -⟩ := deathPatch_daughters_cases did x
        exact ⟨x, hxmem, by rw [← hxy, deathPatch_id], by rw [← hxy]; exact hcd⟩

/-- Witness for `daughter_budget_invariant` at concrete inputs. -/
theorem daughter_budget_invariant_witness :
    plantA.currentDaughters < plantA.futureDaughters ∧
    DaughterBudgetInv
      (handleHyacinthReproduction createRiver plantB.id newPlantId (1/50) (1/20)
        (1/25) 2 7 8 [plantA, plantB]) ∧
    DaughterBudgetInv (handleHyacinthDeath plantB.id [plantA, plantB]) := by
  refine ⟨?_, ?_, ?_⟩
  · exact daughter_budget_invariant.1 plantA (1/2) 1
      (by norm_num [reproductionTriggered, plantA, MAX_BIOMASS])
  · exact daughter_budget_invariant.2.1 createRiver plantB.id newPlantId (1/50)
      (1/20) (1/25) 2 7 8 [plantA, plantB]
      (by intro h hh; rcases List.mem_cons.mp hh with rfl | hh2
          · simp [plantA]
          · have : h = plantB := by simpa using hh2
            rw [this]; simp [plantB])
      (by intro h hh hid; rcases List.mem_cons.mp hh with rfl | hh2
          · simp [plantA]
          · have : h = plantB := by simpa using hh2
            rw [this]; simp [plantB])
      (by norm_num)
  · exact daughter_budget_invariant.2.2.1 plantB.id [plantA, plantB]
      (by intro h hh; rcases List.mem_cons.mp hh with rfl | hh2
          · simp [plantA]
          · have : h = plantB := by simpa using hh2
            rw [this]; simp [plantB])

/-- C5. After a plant death is committed (the id was present, and — as
reproduction guarantees — no plant had the dying plant simultaneously as
parent and daughter): the dead plant is gone from the collection, no
survivor's `parent` references the dead id, no survivor's `daughters`
list contains the dead id (and each former owner appears with
`currentDaughters` decremented, floored at 0); consequently, if every
parent reference was resolvable before the death, every parent reference
is still resolvable afterwards. -/
theorem death_orphan_consistency :
    ∀ (did : String) (hs : List Hyacinth),
      (∃ x ∈ hs, x.id = did) →
      (∀ x ∈ hs, x.parent = some did → did ∉ x.daughters) →
      (∀ y ∈ handleHyacinthDeath did hs, y.id ≠ did) ∧
      (∀ y ∈ handleHyacinthDeath did hs, y.parent ≠ some did) ∧
      (∀ y ∈ handleHyacinthDeath did hs, did ∉ y.daughters) ∧
      (∀ x ∈ hs, x.id ≠ did → did ∈ x.daughters →
        { x with daughters := x.daughters.filter (fun d2 => d2 ≠ did)
                 currentDaughters := max 0 (x.currentDaughters - 1) } ∈
          handleHyacinthDeath did hs) ∧
      ((∀ x ∈ hs, ∀ p, x.parent = some p → ∃ z ∈ hs, z.id = p) →
        ∀ y ∈ handleHyacinthDeath did hs, ∀ p, y.parent = some p →
          ∃ z ∈ handleHyacinthDeath did hs, z.id = p) := by
  intro did hs hpres hnm
  have hout := handleHyacinthDeath_of_present hpres
  refine ⟨?_, ?_, ?_, ?_, ?_⟩
  · intro y hy
    exact (mem_handleHyacinthDeath hy).1
  · intro y hy
    rw [hout] at hy
    rcases List.mem_map.mp hy with ⟨x, hx, hxy⟩
    rw [← hxy]
    exact deathPatch_parent_ne did x
  · intro y hy
    rw [hout] at hy
    rcases List.mem_map.mp hy with ⟨x, hx, hxy⟩
    have hxmem : x ∈ hs := (List.mem_filter.mp hx).1
    rw [← hxy]
    unfold deathPatch
    split_ifs with h1 h2
    · exact hnm x hxmem h1
    · simp
    · exact h2
  · intro x hx hxid hdau
    rw [hout]
    refine List.mem_map.mpr ⟨x, List.mem_filter.mpr ⟨hx, by simpa using hxid⟩, ?_⟩
    unfold deathPatch
    have hp : x.parent ≠ some did := fun hp => hnm x hx hp hdau
    rw [if_neg hp, if_pos hdau]
  · intro hvalid y hy p hyp
    rw [hout] at hy
    rcases List.mem_map.mp hy with ⟨x, hx, hxy⟩
    have hxmem : x ∈ hs := (List.mem_filter.mp hx).1
    have hpne : p ≠ did := by
      intro hpd
      exact (hxy ▸ deathPatch_parent_ne did x) (by rw [hyp, hpd])
    have hxp : x.parent = some p := by
      by_cases hb : x.parent = some did
      · exfalso
        have hnone : (deathPatch did x).parent = none := by
          unfold deathPatch
          rw [if_pos hb]
        rw [hxy, hyp] at hnone
        exact Option.noConfusion hnone
      · rw [← deathPatch_parent_of_ne did x hb, hxy]
        exact hyp
    obtain ⟨z, hz, hzid⟩ := hvalid x hxmem p hxp
    refine ⟨deathPatch did z, ?_, by rw [deathPatch_id]; exact hzid⟩
    rw [hout]
    exact List.mem_map.mpr
      ⟨z, List.mem_filter.mpr ⟨hz, by simp [hzid, hpne]⟩, rfl⟩

/-- Witness for `death_orphan_consistency` at concrete inputs. -/
theorem death_orphan_consistency_witness :
    (∀ y ∈ handleHyacinthDeath plantB.id [plantA, plantB], y.id ≠ plantB.id) ∧
    (∀ y ∈ handleHyacinthDeath plantB.id [plantA, plantB],
      y.parent ≠ some plantB.id) ∧
    (∀ y ∈ handleHyacinthDeath plantB.id [plantA, plantB],
      plantB.id ∉ y.daughters) ∧
    (∀ x ∈ [plantA, plantB], x.id ≠ plantB.id → plantB.id ∈ x.daughters →
      { x with daughters := x.daughters.filter (fun d2 => d2 ≠ plantB.id)
               currentDaughters := max 0 (x.currentDaughters - 1) } ∈
        handleHyacinthDeath plantB.id [plantA, plantB]) ∧
    ((∀ x ∈ [plantA, plantB], ∀ p, x.parent = some p →
        ∃ z ∈ [plantA, plantB], z.id = p) →
      ∀ y ∈ handleHyacinthDeath plantB.id [plantA, plantB], ∀ p,
        y.parent = some p →
        ∃ z ∈ handleHyacinthDeath plantB.id [plantA, plantB], z.id = p) := by
  exact death_orphan_consistency plantB.id [plantA, plantB]
    ⟨plantB, by simp, rfl⟩
    (by intro x hx hp
        rcases List.mem_cons.mp hx with rfl | hx2
        · simp [plantA] at hp
        · have hxb : x = plantB := by simpa using hx2
          rw [hxb] at hp
          simp [plantB] at hp)

/-- C10. The death handler is total and atomic: with an absent id it
returns the collection exactly unchanged; with a present id the result
is exactly the survivors, each transformed by the per-plant patch — and
that patch only clears a `parent` link to the dead id, or removes the
dead id from `daughters` while decrementing `currentDaughters` (floored
at 0), and leaves a plant matching neither condition entirely
unchanged. -/
theorem hyacinth_death_total_frame :
    (∀ (did : String) (hs : List Hyacinth), (∀ x ∈ hs, x.id ≠ did) →
      handleHyacinthDeath did hs = hs) ∧
    (∀ (did : String) (hs : List Hyacinth), (∃ x ∈ hs, x.id = did) →
      (∀ y ∈ handleHyacinthDeath did hs, y.id ≠ did) ∧
      (∀ x ∈ hs, x.id ≠ did → deathPatch did x ∈ handleHyacinthDeath did hs) ∧
      (∀ y ∈ handleHyacinthDeath did hs, ∃ x ∈ hs, x.id ≠ did ∧
        y = deathPatch did x)) ∧
    (∀ (did : String) (x : Hyacinth),
      (x.parent = some did → deathPatch did x = { x with parent := none }) ∧
      (x.parent ≠ some did → did ∈ x.daughters →
        deathPatch did x =
          { x with daughters := x.daughters.filter (fun d2 => d2 ≠ did)
                   currentDaughters := max 0 (x.currentDaughters - 1) }) ∧
      (x.parent ≠ some did → did ∉ x.daughters → deathPatch did x = x)) := by
  refine ⟨?_, ?_, ?_⟩
  · intro did hs habs
    unfold handleHyacinthDeath
    have hnone : hs.find? (fun h => h.id == did) = none :=
      List.find?_eq_none.mpr (fun x hx => by simp [habs x hx])
    rw [hnone]
  · intro did hs hpres
    have hout := handleHyacinthDeath_of_present hpres
    refine ⟨fun y hy => (mem_handleHyacinthDeath hy).1, ?_, ?_⟩
    · intro x hx hxid
      rw [hout]
      exact List.mem_map.mpr ⟨x, List.mem_filter.mpr ⟨hx, by simpa using hxid⟩, rfl⟩
    · intro y hy
      rw [hout] at hy
      rcases List.mem_map.mp hy with ⟨x, hx, hxy⟩
      rcases List.mem_filter.mp hx with ⟨hxmem, hxid⟩
      exact ⟨x, hxmem, by simpa using hxid, hxy.symm⟩
  · intro did x
    refine ⟨?_, ?_, ?_⟩
    · intro hp
      unfold deathPatch
      rw [if_pos hp]
    · intro hp hd
      unfold deathPatch
      rw [if_neg hp, if_pos hd]
    · intro hp hd
      unfold deathPatch
      rw [if_neg hp, if_neg hd]

/-- Witness for `hyacinth_death_total_frame` at concrete inputs. -/
theorem hyacinth_death_total_frame_witness :
    handleHyacinthDeath newPlantId [plantA, plantB] = [plantA, plantB] ∧
    (∀ y ∈ handleHyacinthDeath plantB.id [plantA, plantB], y.id ≠ plantB.id) ∧
    deathPatch plantB.id plantA =
      { plantA with
          daughters := plantA.daughters.filter (fun d2 => d2 ≠ plantB.id)
          currentDaughters := max 0 (plantA.currentDaughters - 1) } := by
  refine ⟨?_, ?_, ?_⟩
  · exact hyacinth_death_total_frame.1 newPlantId [plantA, plantB]
      (by intro x hx
          rcases List.mem_cons.mp hx with rfl | hx2
          · simp [plantA, newPlantId]
          · have hxb : x = plantB := by simpa using hx2
            rw [hxb]; simp [plantB, newPlantId])
  · exact (hyacinth_death_total_frame.2.1 plantB.id [plantA, plantB]
      ⟨plantB, by simp, rfl⟩).1
  · exact (hyacinth_death_total_frame.2.2 plantB.id plantA).2.1
      (by simp [plantA, plantB]) (by simp [plantA, plantB])

end PixiAbm
